import Mathlib

/-!
Shallow embedding of the Classroom/Desk FastAPI service (src/main.py,
src/models/desk.py, src/models/classroom.py).

Modelling conventions:
* UUIDs are modelled as `Nat` (opaque identifiers with decidable equality).
* `datetime.utcnow()` is modelled as a logical clock (`Nat`) passed to each
  handler; when a sequence of operations runs, the clock strictly increases
  between operations.
* The module-level Python dicts `desks` and `classrooms` are modelled as
  insertion-ordered association lists (`Store`), which is the semantics of a
  Python `dict`: assignment to a fresh key appends, assignment to an existing
  key updates in place, `values()` iterates in insertion order.
* A pydantic model whose construction can fail (a pattern or type violation)
  is modelled by an explicit validity check at the construction site; a
  handler that can raise returns `Except ApiError`.
* Partial-update payload fields are `Option (Option X)`: the outer layer is
  pydantic's set/unset distinction (`exclude_unset=True`), the inner layer is
  an explicit JSON `null`.
-/

/-- Errors a handler can surface: `conflict` is HTTP 400 (duplicate id on
create), `notFound` is HTTP 404, `validationError` is a pydantic
`ValidationError` raised inside a handler body (an unhandled 500),
`attributeError` is a Python `AttributeError` raised inside a handler body
(also an unhandled 500). -/
inductive ApiError where
  | conflict
  | notFound
  | validationError
  | attributeError
deriving DecidableEq, Repr

/-- A Python `dict` keyed by UUID: an insertion-ordered association list. -/
abbrev Store (α : Type) : Type := List (Nat × α)

namespace Store

/-- The empty dict. -/
def empty {α : Type} : Store α := []

/-- `d[k]` / `k in d`. -/
def lookup {α : Type} (s : Store α) (k : Nat) : Option α :=
  match s with
  | [] => none
  | (k₀, v₀) :: rest => if k₀ = k then some v₀ else lookup rest k

/-- `k in d`. -/
def contains {α : Type} (s : Store α) (k : Nat) : Bool :=
  (s.lookup k).isSome

/-- `d[k] = v`: update in place when the key exists, append otherwise
(Python dict insertion-order semantics). -/
def set {α : Type} (s : Store α) (k : Nat) (v : α) : Store α :=
  match s with
  | [] => [(k, v)]
  | (k₀, v₀) :: rest =>
      if k₀ = k then (k₀, v) :: rest else (k₀, v₀) :: set rest k v

/-- `del d[k]`. -/
def erase {α : Type} (s : Store α) (k : Nat) : Store α :=
  match s with
  | [] => []
  | (k₀, v₀) :: rest => if k₀ = k then rest else (k₀, v₀) :: erase rest k

/-- `list(d.values())`, in insertion order. -/
def values {α : Type} (s : Store α) : List α :=
  s.map Prod.snd

end Store

/-- The regex constraint `DeskConfig = ^(Left|Right)$` from
src/models/desk.py. -/
def isValidHandConfig (s : String) : Bool :=
  s = "Left" || s = "Right"

/-- `DeskBase` (src/models/desk.py): the desk-shaped value embedded in
classrooms; `id`, `label`, `hand_config`. A parsed `DeskBase` always has
`hand_config` matching `DeskConfig`; the validity is tracked by the boundary
validators below. -/
structure DeskBase where
  id : Nat
  label : String
  hand_config : String
deriving DecidableEq, Repr

/-- `DeskCreate` (src/models/desk.py): creation payload; same fields as
`DeskBase`. -/
structure DeskCreate where
  id : Nat
  label : String
  hand_config : String
deriving DecidableEq, Repr

/-- `DeskRead` (src/models/desk.py): the stored record, adding the two
timestamps. -/
structure DeskRead where
  id : Nat
  label : String
  hand_config : String
  created_at : Nat
  updated_at : Nat
deriving DecidableEq, Repr

/-- `DeskUpdate` (src/models/desk.py): both fields are `Optional[str]` with
default `None`; NEITHER is constrained by `DeskConfig`. Outer `Option` is
set/unset, inner `Option` is an explicit JSON null. -/
structure DeskUpdate where
  label : Option (Option String) := none
  hand_config : Option (Option String) := none
deriving DecidableEq, Repr

/-- `ClassroomCreate` (src/models/classroom.py): `id`, required `room_no`
and `building`, optional `university`, embedded `desks` list. -/
structure ClassroomCreate where
  id : Nat
  room_no : String
  building : String
  university : Option String
  desks : List DeskBase
deriving DecidableEq, Repr

/-- `ClassroomRead` (src/models/classroom.py): the stored classroom record
with timestamps. -/
structure ClassroomRead where
  id : Nat
  room_no : String
  building : String
  university : Option String
  desks : List DeskBase
  created_at : Nat
  updated_at : Nat
deriving DecidableEq, Repr

/-- `ClassroomUpdate` (src/models/classroom.py): every field optional with
default `None`; outer `Option` is set/unset, inner `Option` is explicit
null. -/
structure ClassroomUpdate where
  room_no : Option (Option String) := none
  building : Option (Option String) := none
  university : Option (Option String) := none
  desks : Option (Option (List DeskBase)) := none
deriving DecidableEq, Repr

/-- The whole in-memory state: the two module-level dicts of src/main.py. -/
structure AppState where
  classrooms : Store ClassroomRead
  desks : Store DeskRead
deriving DecidableEq, Repr

/-- The empty startup state. -/
def AppState.empty : AppState := ⟨Store.empty, Store.empty⟩

/-! ## Boundary (schema) validation

FastAPI parses and validates each request body against the declared pydantic
model before the handler runs; a mismatch is a 422. These predicates state
which bodies pass that boundary for each model. -/

/-- Boundary validation of a `DeskCreate` body: `hand_config` is declared
`DeskConfig`, so it must match `^(Left|Right)$`. -/
def deskCreateBoundaryOk (p : DeskCreate) : Bool :=
  isValidHandConfig p.hand_config

/-- Boundary validation of a `DeskBase` value (embedded desks):
`hand_config` is declared `DeskConfig`. -/
def deskBaseBoundaryOk (p : DeskBase) : Bool :=
  isValidHandConfig p.hand_config

/-- Boundary validation of a `DeskUpdate` body: both fields are plain
`Optional[str]`, so ANY strings (and nulls) pass the boundary. -/
def deskUpdateBoundaryOk (_ : DeskUpdate) : Bool :=
  true

/-- Boundary validation of a `ClassroomCreate` body: every embedded desk is
a `DeskBase`, hence its `hand_config` must match `^(Left|Right)$`. -/
def classroomCreateBoundaryOk (p : ClassroomCreate) : Bool :=
  p.desks.all deskBaseBoundaryOk

/-- Boundary validation of a `ClassroomUpdate` body: the `desks` field, when
present and non-null, is a `List[DeskBase]`, so each desk's `hand_config`
must match `^(Left|Right)$`; the three string fields are unconstrained. -/
def classroomUpdateBoundaryOk (p : ClassroomUpdate) : Bool :=
  match p.desks with
  | some (some ds) => ds.all deskBaseBoundaryOk
  | _ => true

/-- The per-field effect of `stored.update(update.model_dump(exclude_unset=True))`
on a field that is REQUIRED in the stored model: an unset patch field keeps
the stored value, a set patch field (possibly an explicit JSON null)
overwrites it; the result is the value passed to the rebuilt model, where
`none` (a null) will fail type validation. -/
def patchField {α : Type} (cur : α) : Option (Option α) → Option α
  | none => some cur
  | some v => v

/-- The same merge for a field that is OPTIONAL in the stored model
(`university`): a null is a legal final value. -/
def patchFieldOpt {α : Type} (cur : Option α) : Option (Option α) → Option α
  | none => cur
  | some v => v

/-! ## Desk endpoints (src/main.py lines 69-132) -/

/-- `create_desk` (src/main.py lines 69-74): 400 Conflict when the id is
already stored, otherwise insert `DeskRead(**desk.model_dump())` — the
creation payload's fields plus `created_at = updated_at = now` (both
timestamp fields default to `datetime.utcnow`). Returns the stored
record. -/
def create_desk (st : AppState) (desk : DeskCreate) (now : Nat) :
    Except ApiError (AppState × DeskRead) :=
  if st.desks.contains desk.id then
    .error .conflict
  else
    let d : DeskRead :=
      { id := desk.id, label := desk.label, hand_config := desk.hand_config,
        created_at := now, updated_at := now }
    .ok ({ st with desks := st.desks.set desk.id d }, d)

/-- `list_desks` (src/main.py lines 76-88): start from `desks.values()`,
filter by `label` then by `hand_config` when supplied (exact string
equality). -/
def list_desks (st : AppState) (label hand_config : Option String) :
    List DeskRead :=
  let results := st.desks.values
  let results := match label with
    | none => results
    | some l => results.filter (fun a => a.label = l)
  let results := match hand_config with
    | none => results
    | some h => results.filter (fun a => a.hand_config = h)
  results

/-- `get_desk` (src/main.py lines 90-94): 404 when absent. -/
def get_desk (st : AppState) (desk_id : Nat) : Except ApiError DeskRead :=
  match st.desks.lookup desk_id with
  | none => .error .notFound
  | some d => .ok d

/-- `update_desk` (src/main.py lines 96-103): 404 when absent; otherwise
`stored = desks[desk_id].model_dump()`, overlay
`update.model_dump(exclude_unset=True)` (only fields set in the patch), then
rebuild `DeskRead(**stored)`. Rebuilding validates `hand_config` against
`DeskConfig` and requires `label` to be a string (an explicit null fails
type validation). Note the handler never touches `updated_at`: the stored
value is passed back in, so the default factory does not run. -/
def update_desk (st : AppState) (desk_id : Nat) (update : DeskUpdate) :
    Except ApiError (AppState × DeskRead) :=
  match st.desks.lookup desk_id with
  | none => .error .notFound
  | some stored =>
    let mergedLabel : Option String := patchField stored.label update.label
    let mergedHand : Option String :=
      patchField stored.hand_config update.hand_config
    match mergedLabel, mergedHand with
    | some l, some h =>
      if isValidHandConfig h then
        let d : DeskRead :=
          { id := stored.id, label := l, hand_config := h,
            created_at := stored.created_at, updated_at := stored.updated_at }
        .ok ({ st with desks := st.desks.set desk_id d }, d)
      else
        .error .validationError
    | _, _ => .error .validationError

/-- `replace_desk` (src/main.py lines 105-125): when the path id is absent,
call `create_desk` on the body with its `id` overwritten by the path id;
when present, rebuild the record with the body's `label` and `hand_config`,
the stored `created_at`, and `updated_at = now`. -/
def replace_desk (st : AppState) (desk_id : Nat) (desk : DeskCreate)
    (now : Nat) : Except ApiError (AppState × DeskRead) :=
  match st.desks.lookup desk_id with
  | none => create_desk st { desk with id := desk_id } now
  | some stored =>
    let new_desk : DeskRead :=
      { id := desk_id, label := desk.label, hand_config := desk.hand_config,
        created_at := stored.created_at, updated_at := now }
    .ok ({ st with desks := st.desks.set desk_id new_desk }, new_desk)

/-- `delete_desk` (src/main.py lines 127-132): 404 when absent, else
remove. -/
def delete_desk (st : AppState) (desk_id : Nat) : Except ApiError AppState :=
  if st.desks.contains desk_id then
    .ok { st with desks := st.desks.erase desk_id }
  else
    .error .notFound

/-! ## Classroom endpoints (src/main.py lines 137-213) -/

/-- `create_classroom` (src/main.py lines 137-142): NO duplicate-id check —
`classrooms[classroom_read.id] = classroom_read` overwrites silently. The
stored record keeps the body's id and gets `created_at = updated_at = now`
(both default to `datetime.utcnow`). -/
def create_classroom (st : AppState) (classroom : ClassroomCreate)
    (now : Nat) : AppState × ClassroomRead :=
  let classroom_read : ClassroomRead :=
    { id := classroom.id, room_no := classroom.room_no,
      building := classroom.building, university := classroom.university,
      desks := classroom.desks, created_at := now, updated_at := now }
  ({ st with classrooms := st.classrooms.set classroom_read.id classroom_read },
   classroom_read)

/-- `list_classrooms` (src/main.py lines 144-167). The source starts from
`results = list(desks.values())` — the DESK store, not the classroom store
(line 152). Every supplied filter then evaluates an attribute that
`DeskRead` does not have (`p.room_no`, `p.building`, `p.university`, and
`p.desks` for the two nested-desk filters), which raises `AttributeError`
as soon as the comprehension visits an element; a comprehension over an
empty list never evaluates its condition and yields `[]`. With no filters
the handler returns the desk records themselves. -/
def list_classrooms (st : AppState)
    (room_no building university label hand_config : Option String) :
    Except ApiError (List DeskRead) := do
  let results := st.desks.values
  let results ← match room_no with
    | none => pure results
    | some _ =>
        if results.isEmpty then pure [] else throw ApiError.attributeError
  let results ← match building with
    | none => pure results
    | some _ =>
        if results.isEmpty then pure [] else throw ApiError.attributeError
  let results ← match university with
    | none => pure results
    | some _ =>
        if results.isEmpty then pure [] else throw ApiError.attributeError
  let results ← match label with
    | none => pure results
    | some _ =>
        if results.isEmpty then pure [] else throw ApiError.attributeError
  let results ← match hand_config with
    | none => pure results
    | some _ =>
        if results.isEmpty then pure [] else throw ApiError.attributeError
  pure results

/-- `get_classrooom` (sic, src/main.py lines 169-173): 404 when absent. -/
def get_classrooom (st : AppState) (classroom_id : Nat) :
    Except ApiError ClassroomRead :=
  match st.classrooms.lookup classroom_id with
  | none => .error .notFound
  | some c => .ok c

/-- `update_classroom` (src/main.py lines 175-182): 404 when absent;
otherwise overlay `update.model_dump(exclude_unset=True)` on the stored
dump and rebuild `ClassroomRead(**stored)`. Rebuilding requires `room_no`,
`building` and `desks` to be non-null (explicit nulls fail type
validation); `university` is `Optional[str]`, so null is fine there. A
patched `desks` list REPLACES the whole embedded list. As with
`update_desk`, `updated_at` is passed back in unchanged — it is NOT
refreshed. -/
def update_classroom (st : AppState) (classroom_id : Nat)
    (update : ClassroomUpdate) : Except ApiError (AppState × ClassroomRead) :=
  match st.classrooms.lookup classroom_id with
  | none => .error .notFound
  | some stored =>
    let mergedRoom : Option String := patchField stored.room_no update.room_no
    let mergedBuilding : Option String :=
      patchField stored.building update.building
    let mergedUniversity : Option String :=
      patchFieldOpt stored.university update.university
    let mergedDesks : Option (List DeskBase) :=
      patchField stored.desks update.desks
    match mergedRoom, mergedBuilding, mergedDesks with
    | some r, some b, some ds =>
      let c : ClassroomRead :=
        { id := stored.id, room_no := r, building := b,
          university := mergedUniversity, desks := ds,
          created_at := stored.created_at, updated_at := stored.updated_at }
      .ok ({ st with classrooms := st.classrooms.set classroom_id c }, c)
    | _, _, _ => .error .validationError

/-- `replace_classroom` (src/main.py lines 184-206). When the path id is
absent, the source calls `create_desk(DeskCreate(**new_classroom_data))` —
a copy-paste slip: the classroom dump has no `label` or `hand_config`, the
extra classroom keys are ignored by pydantic, and the two required desk
fields are missing, so `DeskCreate(...)` ALWAYS raises `ValidationError`
before any store is touched. When the path id is present, the record is
rebuilt from the body's fields with the stored `created_at` preserved and
`updated_at = now`. -/
def replace_classroom (st : AppState) (classroom_id : Nat)
    (classroom : ClassroomCreate) (now : Nat) :
    Except ApiError (AppState × ClassroomRead) :=
  match st.classrooms.lookup classroom_id with
  | none => .error .validationError
  | some stored =>
    let new_classroom : ClassroomRead :=
      { id := classroom_id, room_no := classroom.room_no,
        building := classroom.building, university := classroom.university,
        desks := classroom.desks, created_at := stored.created_at,
        updated_at := now }
    .ok ({ st with classrooms := st.classrooms.set classroom_id new_classroom },
         new_classroom)

/-- `delete_classroom` (src/main.py lines 208-213): 404 when absent, else
remove. -/
def delete_classroom (st : AppState) (classroom_id : Nat) :
    Except ApiError AppState :=
  if st.classrooms.contains classroom_id then
    .ok { st with classrooms := st.classrooms.erase classroom_id }
  else
    .error .notFound

/-! ## Operation sequences

A request history is a list of mutating API calls, each executed at a
strictly later `datetime.utcnow()` tick than the one before. A handler that
raises (conflict, not-found, validation error) leaves the shared state
untouched — FastAPI turns the exception into an error response and nothing
was assigned to the dicts. -/

/-- One mutating API call. -/
inductive Op where
  | createDesk (p : DeskCreate)
  | updateDesk (id : Nat) (u : DeskUpdate)
  | replaceDesk (id : Nat) (p : DeskCreate)
  | deleteDesk (id : Nat)
  | createClassroom (p : ClassroomCreate)
  | updateClassroom (id : Nat) (u : ClassroomUpdate)
  | replaceClassroom (id : Nat) (p : ClassroomCreate)
  | deleteClassroom (id : Nat)
deriving DecidableEq, Repr

/-- Execute one call at clock `now`; on an error the state is unchanged. -/
def applyOp (st : AppState) (now : Nat) : Op → AppState
  | .createDesk p =>
      match create_desk st p now with
      | .ok (st', _) => st'
      | .error _ => st
  | .updateDesk id u =>
      match update_desk st id u with
      | .ok (st', _) => st'
      | .error _ => st
  | .replaceDesk id p =>
      match replace_desk st id p now with
      | .ok (st', _) => st'
      | .error _ => st
  | .deleteDesk id =>
      match delete_desk st id with
      | .ok st' => st'
      | .error _ => st
  | .createClassroom p => (create_classroom st p now).1
  | .updateClassroom id u =>
      match update_classroom st id u with
      | .ok (st', _) => st'
      | .error _ => st
  | .replaceClassroom id p =>
      match replace_classroom st id p now with
      | .ok (st', _) => st'
      | .error _ => st
  | .deleteClassroom id =>
      match delete_classroom st id with
      | .ok st' => st'
      | .error _ => st

/-- Run a request history; the clock ticks once per request. -/
def runOps (st : AppState) (t : Nat) : List Op → AppState
  | [] => st
  | op :: ops => runOps (applyOp st t op) (t + 1) ops

/-- The record `DeskRead(**desk.model_dump())` that `create_desk` stores at
clock `now`. -/
def deskReadOfCreate (p : DeskCreate) (now : Nat) : DeskRead :=
  { id := p.id, label := p.label, hand_config := p.hand_config,
    created_at := now, updated_at := now }

/-- A desk record assembled from a path id, a creation payload's fields and
two timestamps (the shape built by `replace_desk` and `create_desk`). -/
def replacedDesk (desk_id : Nat) (p : DeskCreate) (created now : Nat) :
    DeskRead :=
  { id := desk_id, label := p.label, hand_config := p.hand_config,
    created_at := created, updated_at := now }

/-- The desk records a run of successful creations stores, in creation
order: the payload's fields with `created_at = updated_at` = the creation
tick. -/
def expectedDesks (t : Nat) : List DeskCreate → List DeskRead
  | [] => []
  | p :: ps => deskReadOfCreate p t :: expectedDesks (t + 1) ps

/-- The timestamp invariant, strengthened with a clock bound for the
induction: every stored record (in either store) has
`created_at ≤ updated_at`, and was created no later than the current
clock. -/
def timestampsInv (st : AppState) (t : Nat) : Prop :=
  (∀ r ∈ st.desks.values, r.created_at ≤ r.updated_at ∧ r.created_at ≤ t) ∧
  (∀ c ∈ st.classrooms.values, c.created_at ≤ c.updated_at ∧ c.created_at ≤ t)

/-! ## Concrete fixtures used in counterexamples and witnesses -/

/-- A stored desk: id 1, created at tick 3, last updated at tick 5. -/
def deskA : DeskRead :=
  { id := 1, label := "12H", hand_config := "Right",
    created_at := 3, updated_at := 5 }

/-- A state whose desk store holds exactly `deskA`; no classrooms. -/
def stDeskA : AppState := { classrooms := Store.empty, desks := [(1, deskA)] }

/-- A stored classroom with no desks, id 7. -/
def classroomA : ClassroomRead :=
  { id := 7, room_no := "502", building := "Northwest Corner Building",
    university := some "Columbia University", desks := [],
    created_at := 0, updated_at := 0 }

/-- A stored classroom, id 7, with one embedded Right-handed desk. -/
def classroomR : ClassroomRead :=
  { id := 7, room_no := "502", building := "Northwest Corner Building",
    university := none, desks := [{ id := 2, label := "12H", hand_config := "Right" }],
    created_at := 0, updated_at := 0 }

/-- A state with exactly `classroomA` stored; the desk store is empty. -/
def stClassA : AppState := { classrooms := [(7, classroomA)], desks := Store.empty }

/-- A state with exactly `classroomR` stored; the desk store is empty. -/
def stClassR : AppState := { classrooms := [(7, classroomR)], desks := Store.empty }

/-- Like `stClassR`, but the (unrelated) desk store also holds `deskA`. -/
def stClassRDeskA : AppState := { classrooms := [(7, classroomR)], desks := [(1, deskA)] }

/-- A classroom-creation payload reusing id 7. -/
def ccDup : ClassroomCreate :=
  { id := 7, room_no := "417", building := "International Affairs Building",
    university := none, desks := [] }

/-- A desk-creation payload, id 9. -/
def dcW : DeskCreate := { id := 9, label := "14G", hand_config := "Left" }

/-- A desk patch carrying the out-of-range hand_config "Up". -/
def duUp : DeskUpdate := { label := none, hand_config := some (some "Up") }

/-! ## Store lemmas -/

namespace Store

theorem lookup_set_self {α : Type} (s : Store α) (k : Nat) (v : α) :
    (s.set k v).lookup k = some v := by
  induction s with
  | nil => simp [set, lookup]
  | cons hd tl ih =>
      obtain ⟨k₀, v₀⟩ := hd
      by_cases h : k₀ = k <;> simp [set, lookup, h, ih]

theorem lookup_set_ne {α : Type} (s : Store α) {k k' : Nat} (v : α)
    (h : k' ≠ k) : (s.set k v).lookup k' = s.lookup k' := by
  have hk : ¬ k = k' := fun e => h e.symm
  induction s with
  | nil => simp [set, lookup, hk]
  | cons hd tl ih =>
      obtain ⟨k₀, v₀⟩ := hd
      by_cases h₀ : k₀ = k
      · subst h₀
        simp [set, lookup, hk]
      · simp only [set, if_neg h₀, lookup]
        by_cases h₁ : k₀ = k'
        · rw [if_pos h₁, if_pos h₁]
        · rw [if_neg h₁, if_neg h₁]
          exact ih

theorem set_self {α : Type} {s : Store α} {k : Nat} {v : α}
    (h : s.lookup k = some v) : s.set k v = s := by
  induction s with
  | nil => simp [lookup] at h
  | cons hd tl ih =>
      obtain ⟨k₀, v₀⟩ := hd
      by_cases h₀ : k₀ = k
      · simp [lookup, h₀] at h
        simp [set, h₀, h]
      · simp [lookup, h₀] at h
        simp [set, h₀, ih h]

theorem mem_values_set {α : Type} {s : Store α} {k : Nat} {v r : α}
    (h : r ∈ (s.set k v).values) : r = v ∨ r ∈ s.values := by
  induction s with
  | nil =>
      simp only [set] at h
      exact Or.inl (List.mem_singleton.mp h)
  | cons hd tl ih =>
      obtain ⟨k₀, v₀⟩ := hd
      by_cases h₀ : k₀ = k
      · simp only [set, if_pos h₀] at h
        have h' : r ∈ v :: values tl := h
        rcases List.mem_cons.mp h' with rfl | h''
        · exact Or.inl rfl
        · exact Or.inr (List.mem_cons_of_mem _ h'')
      · simp only [set, if_neg h₀] at h
        have h' : r ∈ v₀ :: values (set tl k v) := h
        rcases List.mem_cons.mp h' with rfl | h''
        · exact Or.inr (List.mem_cons_self _ _)
        · rcases ih h'' with h₃ | h₃
          · exact Or.inl h₃
          · exact Or.inr (List.mem_cons_of_mem _ h₃)

theorem mem_values_erase {α : Type} {s : Store α} {k : Nat} {r : α}
    (h : r ∈ (s.erase k).values) : r ∈ s.values := by
  induction s with
  | nil => exact h
  | cons hd tl ih =>
      obtain ⟨k₀, v₀⟩ := hd
      by_cases h₀ : k₀ = k
      · simp only [erase, if_pos h₀] at h
        exact List.mem_cons_of_mem _ h
      · simp only [erase, if_neg h₀] at h
        have h' : r ∈ v₀ :: values (erase tl k) := h
        rcases List.mem_cons.mp h' with rfl | h''
        · exact List.mem_cons_self _ _
        · exact List.mem_cons_of_mem _ (ih h'')

theorem lookup_mem_values {α : Type} {s : Store α} {k : Nat} {v : α}
    (h : s.lookup k = some v) : v ∈ s.values := by
  induction s with
  | nil => exact absurd h (by simp [lookup])
  | cons hd tl ih =>
      obtain ⟨k₀, v₀⟩ := hd
      by_cases h₀ : k₀ = k
      · simp only [lookup, if_pos h₀, Option.some.injEq] at h
        exact h ▸ List.mem_cons_self _ _
      · simp only [lookup, if_neg h₀] at h
        exact List.mem_cons_of_mem _ (ih h)

theorem values_set_of_not_contains {α : Type} {s : Store α} {k : Nat}
    (v : α) (h : s.contains k = false) :
    (s.set k v).values = s.values ++ [v] := by
  induction s with
  | nil => rfl
  | cons hd tl ih =>
      obtain ⟨k₀, v₀⟩ := hd
      by_cases h₀ : k₀ = k
      · exact absurd h (by simp [contains, lookup, h₀])
      · have htl : contains tl k = false := by
          simpa [contains, lookup, h₀] using h
        simp only [set, if_neg h₀]
        show v₀ :: values (set tl k v) = v₀ :: values tl ++ [v]
        rw [ih htl]
        rfl

theorem contains_set_ne {α : Type} (s : Store α) {k k' : Nat} (v : α)
    (h : k' ≠ k) : (s.set k v).contains k' = s.contains k' := by
  simp [contains, lookup_set_ne s v h]

end Store

/-! ## Handler inversion lemmas -/

/-- Successful `create_desk` inverted: the id was fresh, the record carries
the payload fields with both timestamps `now`, and only the desk store
changed (by one `set`). -/
theorem create_desk_ok {st : AppState} {p : DeskCreate} {now : Nat}
    {st' : AppState} {d : DeskRead}
    (h : create_desk st p now = .ok (st', d)) :
    st.desks.contains p.id = false ∧
    d = { id := p.id, label := p.label, hand_config := p.hand_config,
          created_at := now, updated_at := now } ∧
    st'.classrooms = st.classrooms ∧ st'.desks = st.desks.set p.id d := by
  unfold create_desk at h
  by_cases hc : st.desks.contains p.id = true
  · rw [if_pos hc] at h
    exact absurd h (by simp)
  · rw [if_neg hc] at h
    simp only [Except.ok.injEq, Prod.mk.injEq] at h
    obtain ⟨hst, hd⟩ := h
    subst hst
    subst hd
    exact ⟨by simpa using hc, rfl, rfl, rfl⟩

/-- Successful `update_desk` inverted: the id was present, the result keeps
the stored record's id and BOTH timestamps, and only the desk store changed
(by one `set` at the id). -/
theorem update_desk_ok {st : AppState} {id : Nat} {u : DeskUpdate}
    {st' : AppState} {d : DeskRead}
    (h : update_desk st id u = .ok (st', d)) :
    ∃ stored, st.desks.lookup id = some stored ∧
      d.id = stored.id ∧
      d.created_at = stored.created_at ∧ d.updated_at = stored.updated_at ∧
      st'.classrooms = st.classrooms ∧ st'.desks = st.desks.set id d := by
  cases hlook : st.desks.lookup id with
  | none =>
      simp only [update_desk, hlook] at h
      exact absurd h (by simp)
  | some stored =>
      simp only [update_desk, hlook] at h
      refine ⟨stored, rfl, ?_⟩
      split at h
      · split at h
        · simp only [Except.ok.injEq, Prod.mk.injEq] at h
          obtain ⟨hst, hd⟩ := h
          subst hst
          subst hd
          exact ⟨rfl, rfl, rfl, rfl, rfl⟩
        · exact absurd h (by simp)
      · exact absurd h (by simp)

/-- Successful `replace_desk` inverted: the result record has the path id,
the payload's `label` and `hand_config`, `updated_at = now`, and either the
id was absent and `created_at = now`, or the id held `stored` and
`created_at = stored.created_at`; only the desk store changed. -/
theorem replace_desk_ok {st : AppState} {id : Nat} {p : DeskCreate}
    {now : Nat} {st' : AppState} {d : DeskRead}
    (h : replace_desk st id p now = .ok (st', d)) :
    d = { id := id, label := p.label, hand_config := p.hand_config,
          created_at := d.created_at, updated_at := now } ∧
    (d.created_at = now ∨
      ∃ stored, st.desks.lookup id = some stored ∧
        d.created_at = stored.created_at) ∧
    st'.classrooms = st.classrooms ∧ st'.desks = st.desks.set id d := by
  unfold replace_desk at h
  cases hlook : st.desks.lookup id with
  | none =>
      rw [hlook] at h
      obtain ⟨_, hd, hcl, hdk⟩ := create_desk_ok h
      subst hd
      exact ⟨rfl, Or.inl rfl, hcl, hdk⟩
  | some stored =>
      rw [hlook] at h
      simp only [Except.ok.injEq, Prod.mk.injEq] at h
      obtain ⟨hst, hd⟩ := h
      subst hst
      subst hd
      exact ⟨rfl, Or.inr ⟨stored, rfl, rfl⟩, rfl, rfl⟩

/-- Successful `delete_desk` inverted: only the desk store changed, by one
`erase`. -/
theorem delete_desk_ok {st : AppState} {id : Nat} {st' : AppState}
    (h : delete_desk st id = .ok st') :
    st'.classrooms = st.classrooms ∧ st'.desks = st.desks.erase id := by
  unfold delete_desk at h
  by_cases hc : st.desks.contains id = true
  · rw [if_pos hc] at h
    simp only [Except.ok.injEq] at h
    subst h
    exact ⟨rfl, rfl⟩
  · rw [if_neg hc] at h
    exact absurd h (by simp)

/-- Successful `update_classroom` inverted: the id was present, the result
keeps the stored record's id and BOTH timestamps, and only the classroom
store changed (by one `set` at the id). -/
theorem update_classroom_ok {st : AppState} {id : Nat} {u : ClassroomUpdate}
    {st' : AppState} {c : ClassroomRead}
    (h : update_classroom st id u = .ok (st', c)) :
    ∃ stored, st.classrooms.lookup id = some stored ∧
      c.id = stored.id ∧
      c.created_at = stored.created_at ∧ c.updated_at = stored.updated_at ∧
      st'.desks = st.desks ∧ st'.classrooms = st.classrooms.set id c := by
  cases hlook : st.classrooms.lookup id with
  | none =>
      simp only [update_classroom, hlook] at h
      exact absurd h (by simp)
  | some stored =>
      simp only [update_classroom, hlook] at h
      refine ⟨stored, rfl, ?_⟩
      split at h
      · simp only [Except.ok.injEq, Prod.mk.injEq] at h
        obtain ⟨hst, hc⟩ := h
        subst hst
        subst hc
        exact ⟨rfl, rfl, rfl, rfl, rfl⟩
      · exact absurd h (by simp)

/-- Successful `replace_classroom` inverted: the path id was present (the
absent branch always raises), the result has the path id, the payload's
fields, the stored `created_at`, `updated_at = now`; only the classroom
store changed. -/
theorem replace_classroom_ok {st : AppState} {id : Nat}
    {p : ClassroomCreate} {now : Nat} {st' : AppState} {c : ClassroomRead}
    (h : replace_classroom st id p now = .ok (st', c)) :
    ∃ stored, st.classrooms.lookup id = some stored ∧
      c = { id := id, room_no := p.room_no, building := p.building,
            university := p.university, desks := p.desks,
            created_at := stored.created_at, updated_at := now } ∧
      st'.desks = st.desks ∧ st'.classrooms = st.classrooms.set id c := by
  unfold replace_classroom at h
  cases hlook : st.classrooms.lookup id with
  | none =>
      rw [hlook] at h
      exact absurd h (by simp)
  | some stored =>
      rw [hlook] at h
      simp only [Except.ok.injEq, Prod.mk.injEq] at h
      obtain ⟨hst, hc⟩ := h
      subst hst
      subst hc
      exact ⟨stored, rfl, rfl, rfl, rfl⟩

/-- Successful `delete_classroom` inverted: only the classroom store
changed, by one `erase`. -/
theorem delete_classroom_ok {st : AppState} {id : Nat} {st' : AppState}
    (h : delete_classroom st id = .ok st') :
    st'.desks = st.desks ∧ st'.classrooms = st.classrooms.erase id := by
  unfold delete_classroom at h
  by_cases hc : st.classrooms.contains id = true
  · rw [if_pos hc] at h
    simp only [Except.ok.injEq] at h
    subst h
    exact ⟨rfl, rfl⟩
  · rw [if_neg hc] at h
    exact absurd h (by simp)

/-! ## The timestamp invariant -/

theorem timestampsInv_mono {st : AppState} {t t' : Nat}
    (h : timestampsInv st t) (hle : t ≤ t') : timestampsInv st t' := by
  refine ⟨fun r hr => ⟨(h.1 r hr).1, le_trans (h.1 r hr).2 hle⟩,
          fun c hc => ⟨(h.2 c hc).1, le_trans (h.2 c hc).2 hle⟩⟩

/-- One API call executed at a clock `now` no earlier than the bound keeps
the timestamp invariant. -/
theorem timestampsInv_applyOp {st : AppState} {t now : Nat} (op : Op)
    (h : timestampsInv st t) (hle : t ≤ now) :
    timestampsInv (applyOp st now op) now := by
  have hmono : timestampsInv st now := timestampsInv_mono h hle
  cases op with
  | createDesk p =>
      simp only [applyOp]
      split
      case h_1 st' d heq =>
        obtain ⟨-, hd, hcl, hdk⟩ := create_desk_ok heq
        refine ⟨?_, ?_⟩
        · intro r hr
          rw [hdk] at hr
          rcases Store.mem_values_set hr with rfl | hmem
          · rw [hd]
            exact ⟨Nat.le_refl _, Nat.le_refl _⟩
          · exact hmono.1 r hmem
        · intro c hc
          rw [hcl] at hc
          exact hmono.2 c hc
      case h_2 => exact hmono
  | updateDesk id u =>
      simp only [applyOp]
      split
      case h_1 st' d heq =>
        obtain ⟨stored, hlook, -, hcr, hup, hcl, hdk⟩ := update_desk_ok heq
        have hst := hmono.1 stored (Store.lookup_mem_values hlook)
        refine ⟨?_, ?_⟩
        · intro r hr
          rw [hdk] at hr
          rcases Store.mem_values_set hr with rfl | hmem
          · rw [hcr, hup]
            exact hst
          · exact hmono.1 r hmem
        · intro c hc
          rw [hcl] at hc
          exact hmono.2 c hc
      case h_2 => exact hmono
  | replaceDesk id p =>
      simp only [applyOp]
      split
      case h_1 st' d heq =>
        obtain ⟨hd, hcre, hcl, hdk⟩ := replace_desk_ok heq
        have hupd : d.updated_at = now := by rw [hd]
        refine ⟨?_, ?_⟩
        · intro r hr
          rw [hdk] at hr
          rcases Store.mem_values_set hr with rfl | hmem
          · rcases hcre with hnow | ⟨stored, hlook, hcr⟩
            · rw [hnow, hupd]
              exact ⟨Nat.le_refl _, Nat.le_refl _⟩
            · have hst := hmono.1 stored (Store.lookup_mem_values hlook)
              rw [hcr, hupd]
              exact ⟨hst.2, hst.2⟩
          · exact hmono.1 r hmem
        · intro c hc
          rw [hcl] at hc
          exact hmono.2 c hc
      case h_2 => exact hmono
  | deleteDesk id =>
      simp only [applyOp]
      split
      case h_1 st' heq =>
        obtain ⟨hcl, hdk⟩ := delete_desk_ok heq
        refine ⟨?_, ?_⟩
        · intro r hr
          rw [hdk] at hr
          exact hmono.1 r (Store.mem_values_erase hr)
        · intro c hc
          rw [hcl] at hc
          exact hmono.2 c hc
      case h_2 => exact hmono
  | createClassroom p =>
      simp only [applyOp, create_classroom]
      refine ⟨fun r hr => hmono.1 r hr, ?_⟩
      intro c hc
      rcases Store.mem_values_set hc with rfl | hmem
      · exact ⟨Nat.le_refl _, Nat.le_refl _⟩
      · exact hmono.2 c hmem
  | updateClassroom id u =>
      simp only [applyOp]
      split
      case h_1 st' c heq =>
        obtain ⟨stored, hlook, -, hcr, hup, hdk, hcl⟩ := update_classroom_ok heq
        have hst := hmono.2 stored (Store.lookup_mem_values hlook)
        refine ⟨?_, ?_⟩
        · intro r hr
          rw [hdk] at hr
          exact hmono.1 r hr
        · intro c' hc'
          rw [hcl] at hc'
          rcases Store.mem_values_set hc' with rfl | hmem
          · rw [hcr, hup]
            exact hst
          · exact hmono.2 c' hmem
      case h_2 => exact hmono
  | replaceClassroom id p =>
      simp only [applyOp]
      split
      case h_1 st' c heq =>
        obtain ⟨stored, hlook, hc, hdk, hcl⟩ := replace_classroom_ok heq
        have hst := hmono.2 stored (Store.lookup_mem_values hlook)
        have hupd : c.updated_at = now := by rw [hc]
        have hcr : c.created_at = stored.created_at := by rw [hc]
        refine ⟨?_, ?_⟩
        · intro r hr
          rw [hdk] at hr
          exact hmono.1 r hr
        · intro c' hc'
          rw [hcl] at hc'
          rcases Store.mem_values_set hc' with rfl | hmem
          · rw [hcr, hupd]
            exact ⟨hst.2, hst.2⟩
          · exact hmono.2 c' hmem
      case h_2 => exact hmono
  | deleteClassroom id =>
      simp only [applyOp]
      split
      case h_1 st' heq =>
        obtain ⟨hdk, hcl⟩ := delete_classroom_ok heq
        refine ⟨?_, ?_⟩
        · intro r hr
          rw [hdk] at hr
          exact hmono.1 r hr
        · intro c hc
          rw [hcl] at hc
          exact hmono.2 c (Store.mem_values_erase hc)
      case h_2 => exact hmono

/-- Running a request history with a ticking clock keeps the timestamp
invariant. -/
theorem timestampsInv_runOps (ops : List Op) :
    ∀ (st : AppState) (t : Nat), timestampsInv st t →
      timestampsInv (runOps st t ops) (t + ops.length) := by
  induction ops with
  | nil =>
      intro st t h
      simpa [runOps] using h
  | cons op ops ih =>
      intro st t h
      have h1 : timestampsInv (applyOp st t op) t :=
        timestampsInv_applyOp op h (Nat.le_refl t)
      have h2 := timestampsInv_mono h1 (Nat.le_succ t)
      have h3 := ih (applyOp st t op) (t + 1) h2
      have harith : t + (op :: ops).length = t + 1 + ops.length := by
        simp [List.length_cons]
        omega
      rw [runOps, harith]
      exact h3

/-! ## Claim C9 -/

/-- C9: after any request history run from the empty startup state, every
record in either store satisfies `updated_at ≥ created_at`. -/
theorem C9_updated_at_ge_created_at (ops : List Op) :
    (∀ r ∈ (runOps AppState.empty 0 ops).desks.values,
        r.created_at ≤ r.updated_at) ∧
    (∀ c ∈ (runOps AppState.empty 0 ops).classrooms.values,
        c.created_at ≤ c.updated_at) := by
  have hinv : timestampsInv AppState.empty 0 :=
    ⟨fun r hr => absurd hr (by simp [AppState.empty, Store.empty, Store.values]),
     fun c hc => absurd hc (by simp [AppState.empty, Store.empty, Store.values])⟩
  have h := timestampsInv_runOps ops AppState.empty 0 hinv
  exact ⟨fun r hr => (h.1 r hr).1, fun c hc => (h.2 c hc).1⟩

/-- Witness for C9: a one-request history that creates desk `dcW`; the
stored record satisfies the invariant. -/
theorem C9_witness :
    ({ id := 9, label := "14G", hand_config := "Left",
       created_at := 0, updated_at := 0 } : DeskRead).created_at ≤
      ({ id := 9, label := "14G", hand_config := "Left",
         created_at := 0, updated_at := 0 } : DeskRead).updated_at :=
  (C9_updated_at_ge_created_at [Op.createDesk dcW]).1 _ (by decide)

/-! ## Claim C10 -/

/-- Creating a batch of desks with pairwise-distinct ids, all fresh for the
starting state, stores them in creation order after the existing records
and leaves the classroom store alone. -/
theorem runOps_creates_values (ps : List DeskCreate) :
    ∀ (st : AppState) (t : Nat),
      (∀ p ∈ ps, st.desks.contains p.id = false) →
      (ps.map DeskCreate.id).Nodup →
      (runOps st t (ps.map Op.createDesk)).desks.values
          = st.desks.values ++ expectedDesks t ps ∧
      (runOps st t (ps.map Op.createDesk)).classrooms = st.classrooms := by
  induction ps with
  | nil =>
      intro st t _ _
      exact ⟨by simp [runOps, expectedDesks], rfl⟩
  | cons p ps ih =>
      intro st t hfresh hnodup
      obtain ⟨hpnotin, hnodup'⟩ := List.nodup_cons.mp hnodup
      have hp : st.desks.contains p.id = false :=
        hfresh p (List.mem_cons_self _ _)
      have happ : applyOp st t (Op.createDesk p) =
          { st with desks := st.desks.set p.id (deskReadOfCreate p t) } := by
        simp [applyOp, create_desk, hp, deskReadOfCreate]
      have hfresh' : ∀ q ∈ ps,
          (applyOp st t (Op.createDesk p)).desks.contains q.id = false := by
        intro q hq
        rw [happ]
        have hne : q.id ≠ p.id := by
          intro he
          exact hpnotin (he ▸ List.mem_map_of_mem DeskCreate.id hq)
        rw [Store.contains_set_ne _ _ hne]
        exact hfresh q (List.mem_cons_of_mem _ hq)
      have hih := ih (applyOp st t (Op.createDesk p)) (t + 1) hfresh' hnodup'
      refine ⟨?_, ?_⟩
      · show (runOps (applyOp st t (Op.createDesk p)) (t + 1)
            (ps.map Op.createDesk)).desks.values = _
        rw [hih.1, happ]
        show (st.desks.set p.id _).values ++ _ = _
        rw [Store.values_set_of_not_contains _ hp]
        simp [expectedDesks]
      · show (runOps (applyOp st t (Op.createDesk p)) (t + 1)
            (ps.map Op.createDesk)).classrooms = _
        rw [hih.2, happ]

/-- C10: for a history consisting only of successful desk creations (all
ids pairwise distinct, run from the empty state), the unfiltered desk List
returns the records in exactly creation order. -/
theorem C10_list_in_creation_order (ps : List DeskCreate)
    (h : (ps.map DeskCreate.id).Nodup) :
    list_desks (runOps AppState.empty 0 (ps.map Op.createDesk)) none none
      = expectedDesks 0 ps := by
  have hrun := runOps_creates_values ps AppState.empty 0
    (fun p _ => rfl) h
  show (runOps AppState.empty 0 (ps.map Op.createDesk)).desks.values = _
  rw [hrun.1]
  rfl

/-- Witness for C10: two concrete creations, listed in creation order. -/
theorem C10_witness :
    list_desks (runOps AppState.empty 0
        (([{ id := 1, label := "A", hand_config := "Left" },
           { id := 2, label := "B", hand_config := "Right" }] :
          List DeskCreate).map Op.createDesk)) none none
      = expectedDesks 0
          [{ id := 1, label := "A", hand_config := "Left" },
           { id := 2, label := "B", hand_config := "Right" }] :=
  C10_list_in_creation_order _ (by decide)

/-! ## Claim C2 -/

/-- C2 (claim refuted by the code): `list_classrooms` iterates the DESK
store (src/main.py line 152). With exactly one classroom stored and no
desks, the unfiltered classroom List returns the empty list, not the set of
stored classrooms. -/
theorem C2_list_classrooms_reads_desk_store :
    stClassA.classrooms.values = [classroomA] ∧
    list_classrooms stClassA none none none none none = .ok [] ∧
    ([] : List ClassroomRead) ≠ [classroomA] := by
  refine ⟨rfl, rfl, by decide⟩

/-! ## Claim C3 -/

/-- C3 (claim refuted by the code): PUT on an id absent from the classroom
store raises a validation error (the handler constructs a `DeskCreate` from
classroom data, which lacks the required desk fields), stores nothing, and
a subsequent Get on the path id still fails with NotFound. -/
theorem C3_replace_missing_classroom_fails :
    replace_classroom AppState.empty 7 ccDup 0 = .error .validationError ∧
    applyOp AppState.empty 0 (Op.replaceClassroom 7 ccDup) = AppState.empty ∧
    get_classrooom (applyOp AppState.empty 0 (Op.replaceClassroom 7 ccDup)) 7
      = .error .notFound := by
  refine ⟨rfl, rfl, rfl⟩

/-! ## Claim C4 -/

/-- C4 (claim refuted by the code): with one classroom stored that embeds a
Right-handed desk, filtering classrooms by hand_config "Right" yields the
empty list when the desk store is empty (the handler filters the DESK
store), and raises AttributeError when the desk store is nonempty (a
`DeskRead` has no `desks` attribute); the claim requires `[classroomR]` in
both cases. -/
theorem C4_classroom_filter_broken :
    stClassR.classrooms.values = [classroomR] ∧
    stClassRDeskA.classrooms.values = [classroomR] ∧
    (∃ d ∈ classroomR.desks, d.hand_config = "Right") ∧
    list_classrooms stClassR none none none none (some "Right") = .ok [] ∧
    list_classrooms stClassRDeskA none none none none (some "Right")
      = .error .attributeError := by
  refine ⟨rfl, rfl, ⟨{ id := 2, label := "12H", hand_config := "Right" },
    by decide, rfl⟩, rfl, rfl⟩

/-! ## Claim C6 -/

/-- C6 (claim refuted by the code): two states with IDENTICAL classroom
stores but different desk stores give different classroom List results —
the Desk Store influences a Classroom operation (src/main.py line 152
iterates `desks.values()`). -/
theorem C6_desk_store_influences_classroom_list :
    stClassR.classrooms = stClassRDeskA.classrooms ∧
    list_classrooms stClassR none none none none none = .ok [] ∧
    list_classrooms stClassRDeskA none none none none none = .ok [deskA] ∧
    Except.ok ([] : List DeskRead) ≠ (.ok [deskA] : Except ApiError _) := by
  refine ⟨rfl, rfl, rfl, by simp [deskA]⟩

/-! ## Claim C7 -/

/-- C7: desk ReplaceOrCreate. When the path id is absent it creates a
record whose id is the path id (any body id is ignored) with the supplied
label and hand_config and `created_at = updated_at = now`; when present it
replaces label and hand_config, preserves the stored `created_at`, sets
`updated_at = now`; in both cases the new record is stored at the path id,
every other key and the classroom store are untouched, and the record is
returned. -/
theorem C7_replace_desk_semantics (st : AppState) (desk_id : Nat)
    (p : DeskCreate) (now : Nat) :
    (st.desks.lookup desk_id = none →
      ∃ st' d, replace_desk st desk_id p now = .ok (st', d) ∧
        d = { id := desk_id, label := p.label, hand_config := p.hand_config,
              created_at := now, updated_at := now } ∧
        st'.desks.lookup desk_id = some d ∧
        st'.classrooms = st.classrooms ∧
        (∀ k, k ≠ desk_id → st'.desks.lookup k = st.desks.lookup k)) ∧
    (∀ stored, st.desks.lookup desk_id = some stored →
      ∃ st' d, replace_desk st desk_id p now = .ok (st', d) ∧
        d = { id := desk_id, label := p.label, hand_config := p.hand_config,
              created_at := stored.created_at, updated_at := now } ∧
        st'.desks.lookup desk_id = some d ∧
        st'.classrooms = st.classrooms ∧
        (∀ k, k ≠ desk_id → st'.desks.lookup k = st.desks.lookup k)) := by
  constructor
  · intro hlook
    have hcont : st.desks.contains desk_id = false := by
      simp [Store.contains, hlook]
    refine ⟨AppState.mk st.classrooms
        (st.desks.set desk_id (replacedDesk desk_id p now now)),
      replacedDesk desk_id p now now, ?_, rfl, ?_, rfl, ?_⟩
    · simp only [replace_desk, hlook, create_desk, hcont]
      rfl
    · exact Store.lookup_set_self _ _ _
    · intro k hk
      exact Store.lookup_set_ne _ _ hk
  · intro stored hlook
    refine ⟨AppState.mk st.classrooms
        (st.desks.set desk_id (replacedDesk desk_id p stored.created_at now)),
      replacedDesk desk_id p stored.created_at now, ?_, rfl, ?_, rfl, ?_⟩
    · simp only [replace_desk, hlook]
      rfl
    · exact Store.lookup_set_self _ _ _
    · intro k hk
      exact Store.lookup_set_ne _ _ hk

/-- Witness for C7 at a concrete state: replacing desk 1 (stored with
created_at = 3) at clock 8 returns a record that keeps created_at = 3 and
has updated_at = 8. -/
theorem C7_witness :
    (replace_desk stDeskA 1 dcW 8).toOption.map Prod.snd
      = some (DeskRead.mk 1 "14G" "Left" 3 8) := by
  obtain ⟨st', d, heq, hd, -, -, -⟩ :=
    (C7_replace_desk_semantics stDeskA 1 dcW 8).2 deskA (by decide)
  rw [heq, hd]
  rfl

/-! ## Claim C5 -/

/-- C5 (counterexample): Classroom Create does NOT fail with Conflict on a
duplicate id. With classroom id 7 already stored, creating `ccDup` (body id
7) succeeds and silently overwrites the stored record. -/
theorem C5_counterexample :
    stClassA.classrooms.contains 7 = true ∧
    (create_classroom stClassA ccDup 9).1.classrooms.lookup 7 =
      some (create_classroom stClassA ccDup 9).2 ∧
    (create_classroom stClassA ccDup 9).2 ≠ classroomA := by
  refine ⟨rfl, rfl, by decide⟩

/-- C5 (amended): Desk Create fails with Conflict when the body id exists,
leaving both stores unchanged, and otherwise inserts a record with
`created_at = updated_at = now` that it returns, touching nothing else;
Classroom Create NEVER fails: it stores the body's fields under the body id
with `created_at = updated_at = now`, silently overwriting any existing
record with that id, and touches nothing else. -/
theorem C5_create_semantics (st : AppState) (p : DeskCreate)
    (c : ClassroomCreate) (now : Nat) :
    (st.desks.contains p.id = true →
      create_desk st p now = .error .conflict ∧
      applyOp st now (Op.createDesk p) = st) ∧
    (st.desks.contains p.id = false →
      ∃ st' d, create_desk st p now = .ok (st', d) ∧
        d = { id := p.id, label := p.label, hand_config := p.hand_config,
              created_at := now, updated_at := now } ∧
        st'.desks.lookup p.id = some d ∧
        st'.classrooms = st.classrooms ∧
        (∀ k, k ≠ p.id → st'.desks.lookup k = st.desks.lookup k)) ∧
    (∃ st' cr, create_classroom st c now = (st', cr) ∧
      cr = { id := c.id, room_no := c.room_no, building := c.building,
             university := c.university, desks := c.desks,
             created_at := now, updated_at := now } ∧
      st'.classrooms.lookup c.id = some cr ∧
      st'.desks = st.desks ∧
      (∀ k, k ≠ c.id → st'.classrooms.lookup k = st.classrooms.lookup k)) := by
  refine ⟨?_, ?_, ?_⟩
  · intro hc
    have herr : create_desk st p now = .error .conflict := by
      simp only [create_desk, hc]
      rfl
    exact ⟨herr, by simp [applyOp, herr]⟩
  · intro hc
    refine ⟨AppState.mk st.classrooms
        (st.desks.set p.id (replacedDesk p.id p now now)),
      replacedDesk p.id p now now, ?_, rfl, ?_, rfl, ?_⟩
    · simp only [create_desk, hc]
      rfl
    · exact Store.lookup_set_self _ _ _
    · intro k hk
      exact Store.lookup_set_ne _ _ hk
  · refine ⟨AppState.mk
        (st.classrooms.set c.id (ClassroomRead.mk c.id c.room_no c.building
          c.university c.desks now now)) st.desks,
      ClassroomRead.mk c.id c.room_no c.building c.university c.desks now now,
      rfl, rfl, ?_, rfl, ?_⟩
    · exact Store.lookup_set_self _ _ _
    · intro k hk
      exact Store.lookup_set_ne _ _ hk

/-- Witness for C5: with desk 1 already stored, creating a desk with body
id 1 fails with Conflict and leaves the state unchanged. -/
theorem C5_witness :
    create_desk stDeskA { id := 1, label := "4A", hand_config := "Left" } 9
        = .error .conflict ∧
    applyOp stDeskA 9
        (Op.createDesk (DeskCreate.mk 1 "4A" "Left")) = stDeskA :=
  (C5_create_semantics stDeskA { id := 1, label := "4A", hand_config := "Left" }
    ccDup 9).1 (by decide)

/-! ## Claim C8 -/

/-- C8 (counterexample): "Up" is outside the enum, yet a desk PARTIAL-UPDATE
body carrying hand_config = "Up" passes boundary validation —
`DeskUpdate.hand_config` is a plain `Optional[str]` with no constraint
(src/models/desk.py line 60), so such a request DOES reach the handler. -/
theorem C8_counterexample :
    isValidHandConfig "Up" = false ∧ deskUpdateBoundaryOk duUp = true := by
  decide

/-- C8 (amended): a hand_config outside the enum is rejected at the boundary
(422) for desk creation/replacement bodies and for desks embedded in
classroom bodies (creation, replacement, partial update); a desk
PARTIAL-UPDATE body is NOT checked at the boundary and reaches the handler,
which then fails while rebuilding the stored record, so the stores are
still unchanged. -/
theorem C8_invalid_hand_config (v : String)
    (hv : isValidHandConfig v = false)
    (pd : DeskCreate) (pc : ClassroomCreate) (cu : ClassroomUpdate)
    (du : DeskUpdate) (st : AppState) (id t : Nat) :
    (pd.hand_config = v → deskCreateBoundaryOk pd = false) ∧
    (∀ d ∈ pc.desks, d.hand_config = v →
      classroomCreateBoundaryOk pc = false) ∧
    (∀ ds, cu.desks = some (some ds) → ∀ d ∈ ds, d.hand_config = v →
      classroomUpdateBoundaryOk cu = false) ∧
    (du.hand_config = some (some v) →
      deskUpdateBoundaryOk du = true ∧
      (∀ r, update_desk st id du ≠ .ok r) ∧
      applyOp st t (Op.updateDesk id du) = st) := by
  refine ⟨?_, ?_, ?_, ?_⟩
  · intro h
    simp [deskCreateBoundaryOk, h, hv]
  · intro d hd h
    simp only [classroomCreateBoundaryOk, List.all_eq_false]
    exact ⟨d, hd, by simp [deskBaseBoundaryOk, h, hv]⟩
  · intro ds hds d hd h
    simp only [classroomUpdateBoundaryOk, hds, List.all_eq_false]
    exact ⟨d, hd, by simp [deskBaseBoundaryOk, h, hv]⟩
  · intro h
    have hne : ∀ r, update_desk st id du ≠ .ok r := by
      intro r hr
      cases hlook : st.desks.lookup id with
      | none =>
          simp only [update_desk, hlook] at hr
          exact absurd hr (by simp)
      | some stored =>
          simp only [update_desk, hlook, h, patchField] at hr
          split at hr
          · next l hvar heq1 heq2 =>
              have hvv : hvar = v := (Option.some.inj heq2).symm
              rw [hvv, hv] at hr
              simp at hr
          · next => simp at hr
    refine ⟨rfl, hne, ?_⟩
    cases hres : update_desk st id du with
    | ok r => exact absurd hres (hne r)
    | error e => simp [applyOp, hres]

/-- Witness for C8: the concrete patch `duUp` (hand_config = "Up") passes
the boundary but leaves the concrete state `stDeskA` unchanged. -/
theorem C8_witness :
    deskUpdateBoundaryOk duUp = true ∧
    applyOp stDeskA 3 (Op.updateDesk 1 duUp) = stDeskA :=
  (fun h => ⟨h.1, h.2.2⟩)
    ((C8_invalid_hand_config "Up" (by decide) dcW ccDup {} duUp
      stDeskA 1 3).2.2.2 rfl)

/-! ## Claim C1 -/

/-- Characterization of `patchField` on a patch field that is not an
explicit null. -/
theorem patchField_spec {α : Type} (cur : α) (f : Option (Option α))
    (hf : f ≠ some none) :
    ∃ v, patchField cur f = some v ∧ (f = none → v = cur) ∧
      (∀ w, f = some (some w) → v = w) := by
  rcases f with _ | w
  · exact ⟨cur, rfl, fun _ => rfl, fun w h => by simp at h⟩
  · rcases w with _ | w
    · exact absurd rfl hf
    · refine ⟨w, rfl, by simp, ?_⟩
      intro w' h
      simpa using h

/-- Characterization of `patchFieldOpt` (the `university` field). -/
theorem patchFieldOpt_spec {α : Type} (cur : Option α)
    (f : Option (Option α)) :
    (f = none → patchFieldOpt cur f = cur) ∧
    (∀ v, f = some v → patchFieldOpt cur f = v) := by
  rcases f with _ | v
  · exact ⟨fun _ => rfl, fun v h => by simp at h⟩
  · refine ⟨by simp, ?_⟩
    intro v' h
    cases h
    rfl

/-- C1 (amended): for both stores, PartialUpdate fails with NotFound when
the path id is absent. When it is present — for a patch whose non-nullable
fields are not explicit nulls and whose patched hand_config (if any) is
valid, over a state whose stored desks are valid — it merges exactly the
fields present in the patch onto the stored record, leaves every omitted
field untouched, and leaves `updated_at` UNCHANGED (the handler never
refreshes it); in particular the empty patch returns the stored record and
leaves the whole state unchanged, `updated_at` included. -/
theorem C1_partial_update_merge (st : AppState) (id : Nat)
    (du : DeskUpdate) (cu : ClassroomUpdate)
    (hwf : ∀ r ∈ st.desks.values, isValidHandConfig r.hand_config = true)
    (hdl : du.label ≠ some none)
    (hdh : ∀ w, du.hand_config = some (some w) →
      isValidHandConfig w = true)
    (hdhn : du.hand_config ≠ some none)
    (hcr : cu.room_no ≠ some none)
    (hcb : cu.building ≠ some none)
    (hcd : cu.desks ≠ some none) :
    (st.desks.lookup id = none →
      update_desk st id du = .error .notFound) ∧
    (∀ stored, st.desks.lookup id = some stored →
      ∃ st' d, update_desk st id du = .ok (st', d) ∧
        d.id = stored.id ∧
        d.created_at = stored.created_at ∧
        d.updated_at = stored.updated_at ∧
        (du.label = none → d.label = stored.label) ∧
        (∀ w, du.label = some (some w) → d.label = w) ∧
        (du.hand_config = none → d.hand_config = stored.hand_config) ∧
        (∀ w, du.hand_config = some (some w) → d.hand_config = w) ∧
        st'.classrooms = st.classrooms ∧
        st'.desks.lookup id = some d ∧
        (∀ k, k ≠ id → st'.desks.lookup k = st.desks.lookup k)) ∧
    (∀ stored, st.desks.lookup id = some stored →
      update_desk st id (DeskUpdate.mk none none) = .ok (st, stored)) ∧
    (st.classrooms.lookup id = none →
      update_classroom st id cu = .error .notFound) ∧
    (∀ stored, st.classrooms.lookup id = some stored →
      ∃ st' c, update_classroom st id cu = .ok (st', c) ∧
        c.id = stored.id ∧
        c.created_at = stored.created_at ∧
        c.updated_at = stored.updated_at ∧
        (cu.room_no = none → c.room_no = stored.room_no) ∧
        (∀ w, cu.room_no = some (some w) → c.room_no = w) ∧
        (cu.building = none → c.building = stored.building) ∧
        (∀ w, cu.building = some (some w) → c.building = w) ∧
        (cu.university = none → c.university = stored.university) ∧
        (∀ v, cu.university = some v → c.university = v) ∧
        (cu.desks = none → c.desks = stored.desks) ∧
        (∀ ds, cu.desks = some (some ds) → c.desks = ds) ∧
        st'.desks = st.desks ∧
        st'.classrooms.lookup id = some c ∧
        (∀ k, k ≠ id → st'.classrooms.lookup k = st.classrooms.lookup k)) ∧
    (∀ stored, st.classrooms.lookup id = some stored →
      update_classroom st id (ClassroomUpdate.mk none none none none)
        = .ok (st, stored)) := by
  refine ⟨?_, ?_, ?_, ?_, ?_, ?_⟩
  · intro hlook
    simp only [update_desk, hlook]
  · intro stored hlook
    obtain ⟨L, hLeq, hLnone, hLsome⟩ :=
      patchField_spec stored.label du.label hdl
    obtain ⟨H, hHeq, hHnone, hHsome⟩ :=
      patchField_spec stored.hand_config du.hand_config hdhn
    have hHvalid : isValidHandConfig H = true := by
      rcases hhc : du.hand_config with _ | w
      · rw [hHnone hhc]
        exact hwf stored (Store.lookup_mem_values hlook)
      · rcases w with _ | w'
        · exact absurd hhc hdhn
        · rw [hHsome w' hhc]
          exact hdh w' hhc
    refine ⟨AppState.mk st.classrooms (st.desks.set id
        (DeskRead.mk stored.id L H stored.created_at stored.updated_at)),
      DeskRead.mk stored.id L H stored.created_at stored.updated_at,
      ?_, rfl, rfl, rfl, hLnone, hLsome, hHnone, hHsome, rfl, ?_, ?_⟩
    · simp only [update_desk, hlook, hLeq, hHeq, hHvalid]
      rfl
    · exact Store.lookup_set_self _ _ _
    · intro k hk
      exact Store.lookup_set_ne _ _ hk
  · intro stored hlook
    have hvalid : isValidHandConfig stored.hand_config = true :=
      hwf stored (Store.lookup_mem_values hlook)
    have hset : st.desks.set id stored = st.desks := Store.set_self hlook
    simp only [update_desk, hlook, patchField, hvalid]
    show Except.ok (AppState.mk st.classrooms (st.desks.set id stored), stored)
      = Except.ok (st, stored)
    rw [hset]
  · intro hlook
    simp only [update_classroom, hlook]
  · intro stored hlook
    obtain ⟨R, hReq, hRnone, hRsome⟩ :=
      patchField_spec stored.room_no cu.room_no hcr
    obtain ⟨B, hBeq, hBnone, hBsome⟩ :=
      patchField_spec stored.building cu.building hcb
    obtain ⟨DS, hDeq, hDnone, hDsome⟩ :=
      patchField_spec stored.desks cu.desks hcd
    obtain ⟨hUnone, hUsome⟩ :=
      patchFieldOpt_spec stored.university cu.university
    refine ⟨AppState.mk (st.classrooms.set id
        (ClassroomRead.mk stored.id R B
          (patchFieldOpt stored.university cu.university) DS
          stored.created_at stored.updated_at)) st.desks,
      ClassroomRead.mk stored.id R B
        (patchFieldOpt stored.university cu.university) DS
        stored.created_at stored.updated_at,
      ?_, rfl, rfl, rfl, hRnone, hRsome, hBnone, hBsome, hUnone, hUsome,
      hDnone, hDsome, rfl, ?_, ?_⟩
    · simp only [update_classroom, hlook, hReq, hBeq, hDeq]
    · exact Store.lookup_set_self _ _ _
    · intro k hk
      exact Store.lookup_set_ne _ _ hk
  · intro stored hlook
    have hset : st.classrooms.set id stored = st.classrooms :=
      Store.set_self hlook
    simp only [update_classroom, hlook, patchField, patchFieldOpt]
    show Except.ok
        (AppState.mk (st.classrooms.set id stored) st.desks, stored)
      = Except.ok (st, stored)
    rw [hset]

/-- C1 (counterexample): PATCH of desk 1 with the EMPTY patch. The stored
record has `updated_at = 5`; the handler returns the very same record and
the very same state — `updated_at` did not strictly increase (the claim
requires it to be set to the current time and strictly increase). -/
theorem C1_counterexample :
    stDeskA.desks.lookup 1 = some deskA ∧
    deskA.updated_at = 5 ∧
    update_desk stDeskA 1 (DeskUpdate.mk none none) = .ok (stDeskA, deskA) := by
  refine ⟨rfl, rfl, rfl⟩

/-- Witness for C1 at a concrete state: the empty patch on stored desk 1
returns the stored record and leaves the state unchanged. -/
theorem C1_witness :
    update_desk stDeskA 1 (DeskUpdate.mk none none) = .ok (stDeskA, deskA) :=
  (C1_partial_update_merge stDeskA 1 (DeskUpdate.mk none none)
    (ClassroomUpdate.mk none none none none)
    (by decide) (by decide) (fun w h => absurd h (by simp))
    (by decide) (by decide) (by decide) (by decide)).2.2.1 deskA (by decide)
